import Mathlib

/-!
Verification of `SF_record_search_4.py`, a small interactive CLI tool that
shells out to the `sfdx` command line, parses its JSON answers and walks the
user through a fixed wizard.  The Python source is shallowly embedded below:

* Python/JSON values are the inductive `SF.PyVal`; Python exceptions that the
  program can raise or catch are `SF.PyErr`; fallible Python code is embedded
  as `Except PyErr _`.
* The external world (the `sfdx` executable and the `json.loads` parser) is an
  explicit `SF.Env` record of functions, passed to every embedded function.
* `subprocess.run` semantics (`run_command`), `dict.get` / `dict[...]`
  subscription, truthiness and iteration are embedded with their exact
  exception behaviour (`AttributeError` on `.get` of a non-dict, `TypeError`
  when iterating a non-iterable, `KeyError` on a missing subscript, ...).
* The wizard loop of `main` is a step function `loopIter` over a `Session`
  record mirroring the `session_state` dict (a key present in the dict is a
  `some` field), driven by a list of pending `input()` lines.
  `print`/logging side effects are dropped; they carry no data the claims use.
-/

namespace SF

/-- Python values as produced by `json.loads` (and the defaults the program
supplies to `dict.get`). -/
inductive PyVal where
  | none
  | bool (b : Bool)
  | int (n : Int)
  | str (s : String)
  | list (xs : List PyVal)
  | dict (kvs : List (String × PyVal))

/-- The Python exception classes the program can raise or catch:
`json.JSONDecodeError`, `KeyError`, `TypeError`, `AttributeError`,
`ValueError` (from `int(...)`). -/
inductive PyErr where
  | jsonError
  | keyError
  | typeError
  | attributeError
  | valueError

/-- Outcome of one `subprocess.run` call: captured stdout on success, a
timeout, or a non-zero exit with captured stderr. -/
inductive CmdOutcome where
  | success (stdout : String)
  | timeout
  | exit (stderr : String)

/-- The external collaborators: the `sfdx` executable (a function from the
command line to its outcome) and the JSON parser (`json.loads`, `Option.none`
meaning `json.JSONDecodeError`). -/
structure Env where
  run : String → CmdOutcome
  parse : String → Option PyVal

/-- The whitespace characters Python `str.split()` / `str.strip()` use
(ASCII portion). -/
def isPyWS (c : Char) : Bool :=
  c == ' ' || c == '\t' || c == '\n' || c == '\r' || c == '\x0b' || c == '\x0c'

/-- Python `str.strip()`. -/
def pyStrip (s : String) : String :=
  String.mk (((s.data.dropWhile isPyWS).reverse.dropWhile isPyWS).reverse)

/-- `startsB p l` : does the character list `l` start with `p`?  (Executable
replacement for `String.startsWith`, so that closed terms reduce.) -/
def startsB : List Char → List Char → Bool
  | [], _ => true
  | _ :: _, [] => false
  | p :: ps, c :: cs => p == c && startsB ps cs

/-- Python `s.startswith(pre)`. -/
def pyStartsWith (s pre : String) : Bool := startsB pre.data s.data

/-- `run_command` (source lines 13-23): run the command; on success return the
stripped stdout, on timeout or non-zero exit return an `"Error: ..."` string. -/
def run_command (env : Env) (command : String) : String :=
  match env.run command with
  | .success stdout => pyStrip stdout
  | .timeout => "Error: Command timed out."
  | .exit stderr => "Error: " ++ pyStrip stderr

/-- Lookup in an embedded Python dict. -/
def dictLookup : List (String × PyVal) → String → Option PyVal
  | [], _ => Option.none
  | (k, v) :: rest, key => if k == key then some v else dictLookup rest key

/-- `json.loads`: `Option.none` from the parser is a `JSONDecodeError`. -/
def pyLoads (env : Env) (s : String) : Except PyErr PyVal :=
  match env.parse s with
  | some v => .ok v
  | Option.none => .error .jsonError

/-- Python `v.get(key, default)`: only dicts have `.get`; anything else raises
`AttributeError`. -/
def pyGetDefault : PyVal → String → PyVal → Except PyErr PyVal
  | .dict kvs, key, dflt => .ok ((dictLookup kvs key).getD dflt)
  | _, _, _ => .error .attributeError

/-- Python `v[key]` for a string key: a dict either yields the value or raises
`KeyError`; subscripting any other value with a string raises `TypeError`. -/
def pySubscript : PyVal → String → Except PyErr PyVal
  | .dict kvs, key =>
    match dictLookup kvs key with
    | some v => .ok v
    | Option.none => .error .keyError
  | _, _ => .error .typeError

/-- Python truthiness of the embedded values. -/
def pyTruthy : PyVal → Bool
  | .none => false
  | .bool b => b
  | .int n => n != 0
  | .str s => s != ""
  | .list xs => !xs.isEmpty
  | .dict kvs => !kvs.isEmpty

/-- Python iteration `for x in v`: lists yield their elements, strings their
characters (as 1-character strings), dicts their keys; other values raise
`TypeError`. -/
def pyIter : PyVal → Except PyErr (List PyVal)
  | .list xs => .ok xs
  | .str s => .ok (s.data.map (fun c => PyVal.str (String.mk [c])))
  | .dict kvs => .ok (kvs.map (fun p => PyVal.str p.1))
  | _ => .error .typeError

/-- One step of `any(org.get("alias") == org_alias for org in ...)`:
`org.get("alias")` raises `AttributeError` on a non-dict; the comparison with
the string `org_alias` is true only for an equal string value. -/
def aliasMatches (org_alias : String) : PyVal → Except PyErr Bool
  | .dict kvs =>
    .ok (match dictLookup kvs "alias" with
         | some (.str s) => s == org_alias
         | _ => false)
  | _ => .error .attributeError

/-- Python `any(...)` over the org descriptors: short-circuits at the first
match, propagating the first exception met before it. -/
def anyAlias (org_alias : String) : List PyVal → Except PyErr Bool
  | [] => .ok false
  | o :: rest => do
    let b ← aliasMatches org_alias o
    if b then .ok true else anyAlias org_alias rest

/-- The auth-list command (source line 27); note it does not mention the
alias. -/
def authCommand : String := "sfdx force:auth:list --json"

/-- Body of the `try:` block of `authenticate_org` (source lines 31-33). -/
def authBody (env : Env) (org_alias response : String) : Except PyErr Bool := do
  let v ← pyLoads env response
  let rv ← pyGetDefault v "result" (.list [])
  let elems ← pyIter rv
  anyAlias org_alias elems

/-- `authenticate_org` (source lines 25-35): false on an `"Error:"`-prefixed
response; false when `json.loads` fails or a `KeyError` escapes; other
exceptions (`AttributeError`, `TypeError`) propagate, as in the source whose
`except` clause lists only `(json.JSONDecodeError, KeyError)`. -/
def authenticate_org (env : Env) (org_alias : String) : Except PyErr Bool :=
  let response := run_command env authCommand
  if pyStartsWith response "Error:" then .ok false
  else
    match authBody env org_alias response with
    | .error .jsonError => .ok false
    | .error .keyError => .ok false
    | r => r

/-- The object-list command (source line 39). -/
def fetchCommand (org_alias : String) : String :=
  "sfdx force:schema:sobject:list --target-org " ++ org_alias ++ " --json"

/-- Body of the `try:` block of `fetch_objects` (source line 44). -/
def fetchBody (env : Env) (response : String) : Except PyErr PyVal := do
  let v ← pyLoads env response
  pyGetDefault v "result" (.list [])

/-- `fetch_objects` (source lines 37-46). -/
def fetch_objects (env : Env) (org_alias : String) : Except PyErr PyVal :=
  let response := run_command env (fetchCommand org_alias)
  if pyStartsWith response "Error:" then .ok (.list [])
  else
    match fetchBody env response with
    | .error .jsonError => .ok (.list [])
    | .error .keyError => .ok (.list [])
    | r => r

/-- The describe command (source line 50). -/
def describeCommand (org_alias object_name : String) : String :=
  "sfdx sobject:describe -o " ++ org_alias ++ " -s " ++ object_name ++ " --json"

/-- One iteration of the field loop of `describe_object` (source lines 62-66):
compute the required marker from `field.get("nillable", True)` and
`field.get("createable", False)` (an `AttributeError` on a non-dict field),
then evaluate `field["name"]` and `field["type"]` for the display row
(a `KeyError` when missing). -/
def fieldRow (f : PyVal) : Except PyErr (PyVal × PyVal × String) :=
  match f with
  | .dict kvs =>
    let nillable := (dictLookup kvs "nillable").getD (.bool true)
    let createable := (dictLookup kvs "createable").getD (.bool false)
    let is_required := if !(pyTruthy nillable) && pyTruthy createable then "✓" else ""
    match dictLookup kvs "name" with
    | Option.none => .error .keyError
    | some nameV =>
      match dictLookup kvs "type" with
      | Option.none => .error .keyError
      | some typeV => .ok (nameV, typeV, is_required)
  | _ => .error .attributeError

/-- Body of the `try:` block of `describe_object` (source lines 56-70):
`json.loads(response)["result"]["fields"]`, the display/required loop, then
the `[field["name"] for field in fields]` comprehension. -/
def describeBody (env : Env) (response : String) :
    Except PyErr (List PyVal × List PyVal) := do
  let v ← pyLoads env response
  let rv ← pySubscript v "result"
  let fv ← pySubscript rv "fields"
  let felems ← pyIter fv
  let rows ← felems.mapM fieldRow
  let required_fields := rows.filterMap (fun r => if r.2.2 == "" then Option.none else some r.1)
  let names ← felems.mapM (fun f => pySubscript f "name")
  .ok (names, required_fields)

/-- `describe_object` (source lines 48-73): `([], [])` on an `"Error:"`
response and on a caught `JSONDecodeError`/`KeyError`; other exceptions
propagate. -/
def describe_object (env : Env) (org_alias object_name : String) :
    Except PyErr (List PyVal × List PyVal) :=
  let response := run_command env (describeCommand org_alias object_name)
  if pyStartsWith response "Error:" then .ok ([], [])
  else
    match describeBody env response with
    | .error .jsonError => .ok ([], [])
    | .error .keyError => .ok ([], [])
    | r => r

/-- The `limit` argument of `SF_record_search`: `main` passes either the raw
input string (when the limit was collected this iteration), or the stored
value (`None` or an int) when it was replayed from `session_state`. -/
inductive PyLimit where
  | none
  | int (n : Int)
  | str (s : String)

/-- `limit in ["All", "all", None]` (source line 80): Python `in` compares
with `==`, an int never equals those strings. -/
def isUnbounded : PyLimit → Bool
  | .none => true
  | .str s => s == "All" || s == "all"
  | .int _ => false

/-- How an f-string renders the limit value. -/
def pyLimitRepr : PyLimit → String
  | .int n => toString n
  | .str s => s
  | .none => "None"

/-- The limit clause (source line 80). -/
def limitClause (limit : PyLimit) : String :=
  if isUnbounded limit then "" else "LIMIT " ++ pyLimitRepr limit

/-- The Python default of the `limit` parameter (source line 75:
`def SF_record_search(..., limit=10, ...)`), used when a caller omits it. -/
def SF_limit_default : PyLimit := .int 10

/-- The `fields` argument of `SF_record_search`: `main` passes the raw input
string when collected this iteration, and the stored value (`None` or a list
of strings) when replayed from `session_state`. -/
inductive PyFields where
  | none
  | list (fs : List String)
  | str (s : String)

/-- Python falsiness of the `fields` argument (`None`, `[]` and `""`). -/
def fieldsFalsy : PyFields → Bool
  | .none => true
  | .list fs => fs.isEmpty
  | .str s => s == ""

/-- `fields = fields or ["Id", "Name"]` (source line 79). -/
def resolveFields (fields : PyFields) : PyFields :=
  if fieldsFalsy fields then .list ["Id", "Name"] else fields

/-- The sequence Python obtains when joining or iterating the `fields` value:
a list yields its entries, a string its characters (Python iterates strings
character by character). `PyFields.none` cannot reach iteration because
`resolveFields` replaced it. -/
def fieldList : PyFields → List String
  | .none => []
  | .list fs => fs
  | .str s => s.data.map (fun c => String.mk [c])

/-- Python `str.split()` with no separator, on character lists: split on runs
of whitespace, no empty parts.  The accumulator holds the current token
reversed. -/
def wsSplitAux : List Char → List Char → List (List Char)
  | [], acc => if acc.isEmpty then [] else [acc.reverse]
  | c :: cs, acc =>
    if isPyWS c then
      if acc.isEmpty then wsSplitAux cs [] else acc.reverse :: wsSplitAux cs []
    else wsSplitAux cs (c :: acc)

/-- `keyword.split()` (source line 83). -/
def pySplitWS (s : String) : List String :=
  (wsSplitAux s.data []).map (fun l => String.mk l)

/-- One full-text match clause `f"FIND {{{part}}}"` (source line 84). -/
def findClause (part : String) : String := "FIND \x7b" ++ part ++ "\x7d"

/-- Python `sep.join(xs)`. -/
def pyJoin (sep : String) : List String → String
  | [] => ""
  | x :: rest => rest.foldl (fun acc y => acc ++ sep ++ y) x

/-- `keyword_conditions` (source lines 84-85): the per-part clauses joined
with `" OR "`, then `+= f" OR FIND {{{keyword}}}"` for the whole keyword. -/
def keywordConditions (keyword : String) : String :=
  pyJoin " OR " ((pySplitWS keyword).map findClause) ++ " OR " ++ findClause keyword

/-- The built query string (source line 87), for an already-resolved field
list. -/
def sfQuery (object_name keyword : String) (limit : PyLimit) (fields : List String) : String :=
  keywordConditions keyword ++ " RETURNING " ++ object_name ++ "(" ++
    pyJoin ", " fields ++ " " ++ limitClause limit ++ ")"

/-- The search command line (source line 90). -/
def searchCommandFor (object_name target_org keyword : String) (limit : PyLimit)
    (fields : PyFields) : String :=
  "sfdx force:data:soql:query --query \"" ++
    sfQuery object_name keyword limit (fieldList (resolveFields fields)) ++
    "\" --target-org " ++ target_org ++ " --json"

/-- What `SF_record_search` returns when no exception escapes: either a plain
message string or a rendered table (header plus one row of values per
record). -/
inductive SFResult where
  | msg (s : String)
  | table (header : List String) (rows : List (List PyVal))

/-- Body of the `try:` block of `SF_record_search` (source lines 95-103):
`json.loads(...).get("result", {}).get("records", [])`, then either the
record table (with `record.get(field, "N/A")` per cell) or
`"No records found."`. -/
def searchBody (env : Env) (text : String) (fields : PyFields) : Except PyErr SFResult := do
  let v ← pyLoads env text
  let rv ← pyGetDefault v "result" (.dict [])
  let records ← pyGetDefault rv "records" (.list [])
  if pyTruthy records then do
    let elems ← pyIter records
    let flds := fieldList fields
    let rows ← elems.mapM (fun record => flds.mapM (fun f => pyGetDefault record f (.str "N/A")))
    pure (.table flds rows)
  else pure (.msg "No records found.")

/-- `SF_record_search` (source lines 75-106).  The second component is the
list of external commands the call ran, in order (there is at most one). -/
def SF_record_search (env : Env) (object_name target_org : String)
    (keyword : Option String) (limit : PyLimit) (fields : PyFields) :
    Except PyErr SFResult × List String :=
  if (match keyword with | Option.none => true | some k => k == "") then
    (.ok (.msg "Error: Search keyword is required."), [])
  else
    let kw := keyword.getD ""
    let flds := resolveFields fields
    let search_command := searchCommandFor object_name target_org kw limit fields
    let search_results := run_command env search_command
    if pyStartsWith search_results "Error:" then
      (.ok (.msg search_results), [search_command])
    else
      match searchBody env search_results flds with
      | .error .jsonError => (.ok (.msg "Error: Unable to parse search results."), [search_command])
      | .error .keyError => (.ok (.msg "Error: Unable to parse search results."), [search_command])
      | r => (r, [search_command])

/-- The wizard's `session_state` dict (source line 109): a key that is absent
from the dict is a `Option.none` field.  The value stored under `"fields"` is
itself `None` for the `all-required` sentinel, and the value stored under
`"limit"` is `None` for an unbounded limit. -/
structure Session where
  org_alias : Option String
  object_name : Option String
  fields : Option (Option (List String))
  keyword : Option String
  limit : Option (Option Int)

/-- The empty session (`session_state.clear()` / initial state). -/
def emptySession : Session :=
  ⟨Option.none, Option.none, Option.none, Option.none, Option.none⟩

/-- Result of one pass through the body of the `while True:` loop of `main`. -/
inductive Outcome where
  /-- a `continue`: loop again with this state and these remaining inputs -/
  | cont (s : Session) (rest : List String)
  /-- the search ran and the loop hit `break`; carries the state at that
  point, the printed search result and the unread inputs -/
  | done (s : Session) (res : SFResult) (rest : List String)
  /-- an uncaught Python exception escaped the loop body (the only `except`
  clause of `main` catches `KeyboardInterrupt`, which the embedding cannot
  produce) -/
  | fatal (e : PyErr)
  /-- `input()` found the stream exhausted -/
  | noInput

/-- Python `str.lower()` (ASCII). -/
def pyLower (s : String) : String := String.mk (s.data.map Char.toLower)

/-- Python `int(s)` on an already-stripped string: optional sign then decimal
digits; anything else raises `ValueError`.  (Python also accepts `_` digit
separators, which no claim exercises.) -/
def pyParseInt (s : String) : Option Int :=
  let digitsToNat : List Char → Option Nat := fun ds =>
    if ds.isEmpty || !ds.all Char.isDigit then Option.none
    else some (ds.foldl (fun a c => a * 10 + (c.toNat - '0'.toNat)) 0)
  match s.data with
  | '+' :: ds => (digitsToNat ds).map Int.ofNat
  | '-' :: ds => (digitsToNat ds).map (fun n => -(Int.ofNat n))
  | ds => (digitsToNat ds).map Int.ofNat

/-- Convert the stored limit value to the argument `SF_record_search`
receives when the limit step was replayed from `session_state`. -/
def limOf : Option Int → PyLimit
  | Option.none => PyLimit.none
  | some n => PyLimit.int n

/-- Convert the stored fields value to the argument `SF_record_search`
receives when the fields step was replayed from `session_state`. -/
def storedFields : Option (List String) → PyFields
  | Option.none => PyFields.none
  | some fs => PyFields.list fs

/-- Step 6, `Execute` (source lines 169-172): run the search with the LOCAL
variables of the loop body (for `fields` and `limit` these are the raw input
strings when collected this iteration, the stored values when replayed). -/
def execSearch (env : Env) (s : Session) (org_alias object_name : String)
    (fieldsLocal : PyFields) (keyword : String) (limitLocal : PyLimit)
    (rest : List String) : Outcome :=
  match (SF_record_search env object_name org_alias (some keyword) limitLocal fieldsLocal).1 with
  | .ok r => .done s r rest
  | .error e => .fatal e

/-- Step 5, `CollectLimit` (source lines 160-167): prompt unless stored;
`"start over"` clears everything; empty/`all` input stores `None`, otherwise
`int(limit)` is stored (`ValueError` escaping on bad input); the local
`limit` variable stays the raw string. -/
def afterKeyword (env : Env) (s : Session) (org_alias object_name : String)
    (fieldsLocal : PyFields) (keyword : String) (inputs : List String) : Outcome :=
  match s.limit with
  | Option.none =>
    match inputs with
    | [] => .noInput
    | i :: rest =>
      let limit := pyStrip i
      if pyLower limit == "start over" then .cont emptySession rest
      else if pyLower limit == "all" || pyLower limit == "" then
        execSearch env { s with limit := some Option.none } org_alias object_name
          fieldsLocal keyword (PyLimit.str limit) rest
      else
        match pyParseInt limit with
        | Option.none => .fatal .valueError
        | some n =>
          execSearch env { s with limit := some (some n) } org_alias object_name
            fieldsLocal keyword (PyLimit.str limit) rest
  | some stored =>
    execSearch env s org_alias object_name fieldsLocal keyword (limOf stored) inputs

/-- Step 4, `CollectKeyword` (source lines 150-157). -/
def afterFields (env : Env) (s : Session) (org_alias object_name : String)
    (fieldsLocal : PyFields) (inputs : List String) : Outcome :=
  match s.keyword with
  | Option.none =>
    match inputs with
    | [] => .noInput
    | i :: rest =>
      let keyword := pyStrip i
      if pyLower keyword == "start over" then .cont emptySession rest
      else afterKeyword env { s with keyword := some keyword } org_alias object_name
        fieldsLocal keyword rest
  | some keyword =>
    afterKeyword env s org_alias object_name fieldsLocal keyword inputs

/-- Python `fields.split(",")` (source line 145): split on every comma,
keeping empty parts (`"".split(",") == [""]`). -/
def splitCommaAux : List Char → List Char → List String
  | [], acc => [String.mk acc.reverse]
  | c :: cs, acc =>
    if c == ',' then String.mk acc.reverse :: splitCommaAux cs []
    else splitCommaAux cs (c :: acc)

def pySplitComma (s : String) : List String := splitCommaAux s.data []

/-- Step 3, `CollectFields` (source lines 140-147): prompt unless stored;
`"start over"` clears everything; the STORED value is `None` for
`all-required` and the comma-split list otherwise, while the LOCAL `fields`
variable keeps the raw input string. -/
def afterObject (env : Env) (s : Session) (org_alias object_name : String)
    (inputs : List String) : Outcome :=
  match s.fields with
  | Option.none =>
    match inputs with
    | [] => .noInput
    | i :: rest =>
      let fields := pyStrip i
      if pyLower fields == "start over" then .cont emptySession rest
      else
        let stored : Option (List String) :=
          if pyLower fields == "all-required" then Option.none
          else some (pySplitComma fields)
        afterFields env { s with fields := some stored } org_alias object_name
          (PyFields.str fields) rest
  | some stored =>
    afterFields env s org_alias object_name (storedFields stored) inputs

/-- Step 2, `CollectObjectName` (source lines 130-137). -/
def afterAuth (env : Env) (s : Session) (org_alias : String)
    (inputs : List String) : Outcome :=
  match s.object_name with
  | Option.none =>
    match inputs with
    | [] => .noInput
    | i :: rest =>
      let object_name := pyStrip i
      if pyLower object_name == "start over" then .cont emptySession rest
      else afterObject env { s with object_name := some object_name } org_alias
        object_name rest
  | some object_name =>
    afterObject env s org_alias object_name inputs

/-- The `Authenticate` transition (source lines 124-127): an authentication
failure pops only the `org_alias` key and continues the loop; an uncaught
exception from `authenticate_org` escapes. -/
def afterOrg (env : Env) (s : Session) (org_alias : String)
    (inputs : List String) : Outcome :=
  match authenticate_org env org_alias with
  | .error e => .fatal e
  | .ok false => .cont { s with org_alias := Option.none } inputs
  | .ok true => afterAuth env s org_alias inputs

/-- One pass through the body of the `while True:` loop of `main`
(source lines 110-172), starting at Step 1, `CollectOrgAlias`. -/
def loopIter (env : Env) (s : Session) (inputs : List String) : Outcome :=
  match s.org_alias with
  | Option.none =>
    match inputs with
    | [] => .noInput
    | i :: rest =>
      let org_alias := pyStrip i
      if pyLower org_alias == "start over" then .cont emptySession rest
      else afterOrg env { s with org_alias := some org_alias } org_alias rest
  | some org_alias => afterOrg env s org_alias inputs

/-- Final fate of a whole session. -/
inductive SessionResult where
  | finished (res : SFResult)
  | fatal (e : PyErr)
  | noInput
  | outOfFuel

/-- The `while True:` loop of `main`, driven by explicit fuel (each pass that
prompts consumes an input line, so any finite input stream needs only
finitely many passes). -/
def runSession (env : Env) : Nat → Session → List String → SessionResult
  | 0, _, _ => .outOfFuel
  | Nat.succ fuel, s, inputs =>
    match loopIter env s inputs with
    | .cont s2 rest => runSession env fuel s2 rest
    | .done _ r _ => .finished r
    | .fatal e => .fatal e
    | .noInput => .noInput

/-! ### Substring toolkit (for the `LIMIT`-substring claims) -/

/-- `p` occurs as a contiguous sublist of `l`. -/
def isSub (p l : List Char) : Prop := ∃ u v, l = u ++ p ++ v

/-- Executable check for `isSub`. -/
def subB (p : List Char) : List Char → Bool
  | [] => p.isEmpty
  | c :: cs => startsB p (c :: cs) || subB p cs

/-- The character list of the substring the limit claims are about. -/
def limChars : List Char := "LIMIT".data

/-- Last element of a character list. -/
def lastC : List Char → Option Char
  | [] => Option.none
  | [c] => some c
  | _ :: c :: cs => lastC (c :: cs)

/-- First element of a character list. -/
def headC : List Char → Option Char
  | [] => Option.none
  | c :: _ => some c

/-- A list whose last character cannot end a proper nonempty prefix of
`"LIMIT"`: appending anything to its right cannot complete an occurrence of
`"LIMIT"` that straddles the boundary. -/
@[reducible] def SafeL (a : List Char) : Prop :=
  lastC a ≠ some 'L' ∧ lastC a ≠ some 'I' ∧ lastC a ≠ some 'M'

/-- A list whose first character cannot start a proper nonempty suffix of
`"LIMIT"`. -/
@[reducible] def SafeR (b : List Char) : Prop :=
  headC b ≠ some 'I' ∧ headC b ≠ some 'M' ∧ headC b ≠ some 'T'

/-- `"LIMIT"` does not occur in the string. -/
def NoLIM (s : String) : Prop := ¬ isSub limChars s.data

/-! ### Definitions taken from the specification's words, for comparison
with the code (refinement claims C1 and C3) -/

/-- Modelled from the spec (section 8 and the C1 claim): the query is exactly
N+1 full-text match clauses — one per whitespace-separated part plus one for
the whole keyword — JOINED by `" OR "`, followed by the `RETURNING` tail.
This differs from the code only in how the final whole-keyword clause is
attached (`pyJoin` of the N+1 clauses here, a hard-coded `++ " OR " ++` in
the code). -/
def specQueryC1 (object_name keyword : String) (limit : PyLimit) (fields : List String) : String :=
  pyJoin " OR " ((pySplitWS keyword).map findClause ++ [findClause keyword]) ++
    " RETURNING " ++ object_name ++ "(" ++ pyJoin ", " fields ++ " " ++ limitClause limit ++ ")"

/-- The auth-list command failed (timeout or non-zero exit). -/
def CmdFailed (env : Env) (cmd : String) : Prop :=
  env.run cmd = .timeout ∨ ∃ msg, env.run cmd = .exit msg

/-- The `result` array of a parsed auth-list answer, read the way the spec
describes it: the parsed value is an object, whose `result` member (defaulted
to the empty array) is an array. -/
def resultArray : PyVal → Option (List PyVal)
  | .dict kvs =>
    match (dictLookup kvs "result").getD (.list []) with
    | .list orgs => some orgs
    | _ => Option.none
  | _ => Option.none

/-- Spec-side success condition of `authenticate (C3)`: the command
succeeded, its (stripped) output parses as JSON, and the `result` array has
an entry whose `alias` member is exactly the requested alias. -/
def authSpec (env : Env) (org_alias : String) : Prop :=
  ∃ out v orgs, env.run authCommand = .success out ∧
    env.parse (pyStrip out) = some v ∧
    resultArray v = some orgs ∧
    ∃ o ∈ orgs, ∃ kvs, o = PyVal.dict kvs ∧ dictLookup kvs "alias" = some (.str org_alias)

/-- A JSON parser is sane when nothing it accepts starts with `"Error:"`
(true of `json.loads`: no JSON document starts with the letter `E`). -/
def JsonSane (env : Env) : Prop :=
  ∀ s v, env.parse s = some v → pyStartsWith s "Error:" = false

/-- Every entry of the parsed auth-list `result` array is an object.  (Scope
hypothesis for C3: the claim speaks of entries with an `alias` field.) -/
def ResultEntriesAreDicts (env : Env) : Prop :=
  ∀ out v orgs, env.run authCommand = .success out →
    env.parse (pyStrip out) = some v → resultArray v = some orgs →
    ∀ o ∈ orgs, ∃ kvs, o = PyVal.dict kvs

/-- Spec-side field name (C7): the `name` member of a field object. -/
def specName : PyVal → PyVal
  | .dict kvs => (dictLookup kvs "name").getD .none
  | _ => .none

/-- Spec-side field type (C7): the `type` member of a field object. -/
def specType : PyVal → PyVal
  | .dict kvs => (dictLookup kvs "type").getD .none
  | _ => .none

/-- Spec-side required classification (C7): required exactly when the
`nillable` member is present and `false` AND the `createable` member is
present and `true`. -/
def specRequired : PyVal → Bool
  | .dict kvs =>
    match dictLookup kvs "nillable", dictLookup kvs "createable" with
    | some (.bool false), some (.bool true) => true
    | _, _ => false
  | _ => false

/-- A field-flag value is absent or a boolean (scope hypothesis for C7). -/
def FlagOk : Option PyVal → Prop := fun o => o = Option.none ∨ ∃ b, o = some (.bool b)

/-- Shape hypothesis for a successful describe response (C7): every field
record is an object carrying `name` and `type`, with boolean-or-absent
`nillable`/`createable` flags. -/
def GoodField (f : PyVal) : Prop :=
  ∃ kvs, f = PyVal.dict kvs ∧
    (∃ nv, dictLookup kvs "name" = some nv) ∧
    (∃ tv, dictLookup kvs "type" = some tv) ∧
    FlagOk (dictLookup kvs "nillable") ∧ FlagOk (dictLookup kvs "createable")

/-! ### Concrete environments used by the witnesses -/

/-- An environment whose every command fails with stderr `"boom"`. -/
def envErr : Env := ⟨fun _ => .exit "boom", fun _ => Option.none⟩

/-- The canned auth-list JSON answer used by witnesses. -/
def authAnswer : PyVal :=
  .dict [("result", .list [.dict [("alias", .str "MyOrg"), ("username", .str "u@x.com")]])]

/-- An environment in which every command succeeds and prints a document that
parses to `authAnswer`. -/
def envAuthOk : Env :=
  ⟨fun _ => .success "AUTHJSON",
   fun s => if s == "AUTHJSON" then some authAnswer else Option.none⟩

/-- A required field record (nillable false, createable true) for witnesses. -/
def fieldA : PyVal :=
  .dict [("name", .str "Id"), ("type", .str "id"),
         ("nillable", .bool false), ("createable", .bool true)]

/-- An optional field record (nillable true, createable absent). -/
def fieldB : PyVal :=
  .dict [("name", .str "Notes"), ("type", .str "textarea"), ("nillable", .bool true)]

/-- The canned describe JSON answer used by witnesses. -/
def descAnswer : PyVal := .dict [("result", .dict [("fields", .list [fieldA, fieldB])])]

/-- An environment whose every command succeeds with a describe answer. -/
def envDesc : Env :=
  ⟨fun _ => .success "DESCJSON",
   fun s => if s == "DESCJSON" then some descAnswer else Option.none⟩

/-- An environment whose every command succeeds with a search answer holding
an empty `records` array. -/
def envEmpty : Env :=
  ⟨fun _ => .success "EMPTYJSON",
   fun s => if s == "EMPTYJSON" then some (.dict [("result", .dict [("records", .list [])])])
            else Option.none⟩

/-- An environment whose every command succeeds but prints unparseable text. -/
def envGarbage : Env := ⟨fun _ => .success "garbage", fun _ => Option.none⟩

/-! ## Theorems -/

/-- Claim C8: whenever the keyword argument is empty or absent (Python
`None`), `SF_record_search` returns the error result
`"Error: Search keyword is required."`, builds no query and invokes no
external command (the invoked-command trace is empty). -/
theorem empty_keyword_error (env : Env) (object_name target_org : String)
    (limit : PyLimit) (fields : PyFields) (keyword : Option String)
    (hk : keyword = Option.none ∨ keyword = some "") :
    SF_record_search env object_name target_org keyword limit fields =
      (.ok (.msg "Error: Search keyword is required."), []) := by
  rcases hk with h | h <;> subst h <;> rfl

/-- Witness for C8 at a concrete input. -/
theorem empty_keyword_error_witness :
    SF_record_search envErr "Account" "MyOrg" Option.none (.int 10) (.list ["Id"]) =
      (.ok (.msg "Error: Search keyword is required."), []) :=
  empty_keyword_error envErr "Account" "MyOrg" (.int 10) (.list ["Id"]) Option.none (Or.inl rfl)

/-- Claim C10: every consumer classifies command output as a failure exactly
when the returned text starts with `"Error:"` — `authenticate_org` then
returns false, `fetch_objects` and `describe_object` return empty results,
and `SF_record_search` returns the text verbatim (for any JSON parser, i.e.
without parsing) — even when `env.run` actually succeeded and merely printed
text starting with `"Error:"`. -/
theorem error_text_classification :
    (∀ env org_alias, pyStartsWith (run_command env authCommand) "Error:" = true →
      authenticate_org env org_alias = .ok false) ∧
    (∀ env org_alias, pyStartsWith (run_command env (fetchCommand org_alias)) "Error:" = true →
      fetch_objects env org_alias = .ok (.list [])) ∧
    (∀ env org_alias object_name,
      pyStartsWith (run_command env (describeCommand org_alias object_name)) "Error:" = true →
      describe_object env org_alias object_name = .ok ([], [])) ∧
    (∀ env object_name target_org (keyword : String) limit fields, keyword ≠ "" →
      pyStartsWith (run_command env (searchCommandFor object_name target_org keyword limit fields))
        "Error:" = true →
      (SF_record_search env object_name target_org (some keyword) limit fields).1 =
        .ok (.msg (run_command env (searchCommandFor object_name target_org keyword limit fields)))) := by
  refine ⟨?_, ?_, ?_, ?_⟩
  · intro env a h
    simp [authenticate_org, h]
  · intro env a h
    simp [fetch_objects, h]
  · intro env a o h
    simp [describe_object, h]
  · intro env o t kw limit fields hne h
    have hkb : (kw == "") = false := beq_eq_false_iff_ne.mpr hne
    simp [SF_record_search, hkb, h]

/-- Witness for C10: a command that exits non-zero with stderr `boom` makes
every consumer take its error path. -/
theorem error_text_classification_witness :
    authenticate_org envErr "MyOrg" = .ok false ∧
    fetch_objects envErr "MyOrg" = .ok (.list []) ∧
    describe_object envErr "MyOrg" "Account" = .ok ([], []) ∧
    (SF_record_search envErr "Account" "MyOrg" (some "Acme") (.int 10) (.list ["Id"])).1 =
      .ok (.msg "Error: boom") := by
  refine ⟨error_text_classification.1 envErr "MyOrg" rfl,
          error_text_classification.2.1 envErr "MyOrg" rfl,
          error_text_classification.2.2.1 envErr "MyOrg" "Account" rfl,
          Eq.trans (error_text_classification.2.2.2 envErr "Account" "MyOrg" "Acme" (.int 10)
            (.list ["Id"]) (by decide) rfl) rfl⟩

/-- Claim C4: at each of the five collection steps (the step is reached when
every earlier key is already collected — and, for the steps after
authentication, the alias authenticates — and this step's key is absent), a
stripped input that case-insensitively equals `"start over"` clears the whole
session state and continues the loop (returning to the org-alias prompt,
which is the first prompt of an empty session) without executing a search
(the outcome is a `cont`, never a `done`). -/
theorem startOver_clears_session :
    (∀ env s (i : String) rest, s.org_alias = Option.none →
      pyLower (pyStrip i) = "start over" →
      loopIter env s (i :: rest) = .cont emptySession rest) ∧
    (∀ env s a (i : String) rest, s.org_alias = some a →
      authenticate_org env a = .ok true → s.object_name = Option.none →
      pyLower (pyStrip i) = "start over" →
      loopIter env s (i :: rest) = .cont emptySession rest) ∧
    (∀ env s a b (i : String) rest, s.org_alias = some a →
      authenticate_org env a = .ok true → s.object_name = some b →
      s.fields = Option.none → pyLower (pyStrip i) = "start over" →
      loopIter env s (i :: rest) = .cont emptySession rest) ∧
    (∀ env s a b fst (i : String) rest, s.org_alias = some a →
      authenticate_org env a = .ok true → s.object_name = some b →
      s.fields = some fst → s.keyword = Option.none →
      pyLower (pyStrip i) = "start over" →
      loopIter env s (i :: rest) = .cont emptySession rest) ∧
    (∀ env s a b fst kw (i : String) rest, s.org_alias = some a →
      authenticate_org env a = .ok true → s.object_name = some b →
      s.fields = some fst → s.keyword = some kw → s.limit = Option.none →
      pyLower (pyStrip i) = "start over" →
      loopIter env s (i :: rest) = .cont emptySession rest) := by
  refine ⟨?_, ?_, ?_, ?_, ?_⟩
  · intro env s i rest h1 hso
    simp [loopIter, h1, hso]
  · intro env s a i rest h1 ha h2 hso
    simp [loopIter, afterOrg, afterAuth, h1, ha, h2, hso]
  · intro env s a b i rest h1 ha h2 h3 hso
    simp [loopIter, afterOrg, afterAuth, afterObject, h1, ha, h2, h3, hso]
  · intro env s a b fst i rest h1 ha h2 h3 h4 hso
    simp [loopIter, afterOrg, afterAuth, afterObject, afterFields, h1, ha, h2, h3, h4, hso]
  · intro env s a b fst kw i rest h1 ha h2 h3 h4 h5 hso
    simp [loopIter, afterOrg, afterAuth, afterObject, afterFields, afterKeyword,
          h1, ha, h2, h3, h4, h5, hso]

/-- Witness for C4: `start over` at each of the five prompts of a concrete
authenticated session. -/
theorem startOver_clears_session_witness :
    loopIter envAuthOk ⟨Option.none, Option.none, Option.none, Option.none, Option.none⟩
      ["start over"] = .cont emptySession [] ∧
    loopIter envAuthOk ⟨some "MyOrg", Option.none, Option.none, Option.none, Option.none⟩
      ["START OVER"] = .cont emptySession [] ∧
    loopIter envAuthOk ⟨some "MyOrg", some "Account", Option.none, Option.none, Option.none⟩
      ["  start over  "] = .cont emptySession [] ∧
    loopIter envAuthOk ⟨some "MyOrg", some "Account", some (some ["Id"]), Option.none,
      Option.none⟩ ["Start Over"] = .cont emptySession [] ∧
    loopIter envAuthOk ⟨some "MyOrg", some "Account", some (some ["Id"]), some "Acme",
      Option.none⟩ ["start over"] = .cont emptySession [] :=
  ⟨startOver_clears_session.1 envAuthOk _ "start over" [] rfl rfl,
   startOver_clears_session.2.1 envAuthOk _ "MyOrg" "START OVER" [] rfl rfl rfl rfl,
   startOver_clears_session.2.2.1 envAuthOk _ "MyOrg" "Account" "  start over  " [] rfl rfl rfl
     rfl rfl,
   startOver_clears_session.2.2.2.1 envAuthOk _ "MyOrg" "Account" (some ["Id"]) "Start Over" []
     rfl rfl rfl rfl rfl rfl,
   startOver_clears_session.2.2.2.2 envAuthOk _ "MyOrg" "Account" (some ["Id"]) "Acme"
     "start over" [] rfl rfl rfl rfl rfl rfl rfl⟩

/-- Claim C5: when authentication fails, exactly the `org_alias` key is
removed from the session (the record update leaves every other field
untouched) and the loop continues — back at the org-alias prompt since that
key is now absent; when authentication succeeds, control proceeds to the
object-name collection step (`afterAuth`).  Both the replayed-alias path and
the freshly-prompted path are covered. -/
theorem auth_failure_frame :
    (∀ env s a inputs, s.org_alias = some a → authenticate_org env a = .ok false →
      loopIter env s inputs = .cont { s with org_alias := Option.none } inputs) ∧
    (∀ env s (i : String) rest, s.org_alias = Option.none →
      pyLower (pyStrip i) ≠ "start over" →
      authenticate_org env (pyStrip i) = .ok false →
      loopIter env s (i :: rest) = .cont { s with org_alias := Option.none } rest) ∧
    (∀ env s a inputs, s.org_alias = some a → authenticate_org env a = .ok true →
      loopIter env s inputs = afterAuth env s a inputs) := by
  refine ⟨?_, ?_, ?_⟩
  · intro env s a inputs h1 ha
    simp [loopIter, afterOrg, h1, ha]
  · intro env s i rest h1 hso ha
    have hsb : (pyLower (pyStrip i) == "start over") = false := beq_eq_false_iff_ne.mpr hso
    simp [loopIter, afterOrg, h1, hsb, ha]
  · intro env s a inputs h1 ha
    simp [loopIter, afterOrg, h1, ha]

/-- Witness for C5: a failing and a succeeding authentication on concrete
sessions; the collected object name, fields and keyword survive the
failure. -/
theorem auth_failure_frame_witness :
    loopIter envErr ⟨some "MyOrg", some "Account", some (some ["Id"]), some "Acme",
      Option.none⟩ [] =
      .cont ⟨Option.none, some "Account", some (some ["Id"]), some "Acme", Option.none⟩ [] ∧
    loopIter envErr ⟨Option.none, some "Account", Option.none, Option.none, Option.none⟩
      ["OtherOrg"] =
      .cont ⟨Option.none, some "Account", Option.none, Option.none, Option.none⟩ [] ∧
    loopIter envAuthOk ⟨some "MyOrg", some "Account", Option.none, Option.none, Option.none⟩
      ["Id,Name"] =
      afterAuth envAuthOk ⟨some "MyOrg", some "Account", Option.none, Option.none, Option.none⟩
        "MyOrg" ["Id,Name"] :=
  ⟨auth_failure_frame.1 envErr _ "MyOrg" [] rfl rfl,
   auth_failure_frame.2.1 envErr _ "OtherOrg" [] rfl (by decide) rfl,
   auth_failure_frame.2.2 envAuthOk _ "MyOrg" ["Id,Name"] rfl rfl⟩

/-- Claim C6: at the limit-collection step, empty input or input that
case-insensitively equals `"all"` stores the unbounded sentinel (`None`)
under the `limit` key; any other (non-`start over`) input is parsed with
`int(...)` and stored; and when that parse fails the resulting `ValueError`
is not caught anywhere in the loop, so the iteration — and with it the whole
session — ends in an unhandled fatal error (the only handler in `main`
catches `KeyboardInterrupt` alone, which this embedding cannot produce). -/
theorem limit_parse_behavior :
    (∀ env s org obj fst kw (i : String) rest, s.org_alias = some org →
      authenticate_org env org = .ok true → s.object_name = some obj →
      s.fields = some fst → s.keyword = some kw → s.limit = Option.none →
      ((pyLower (pyStrip i) = "all" ∨ pyLower (pyStrip i) = "") →
        loopIter env s (i :: rest) =
          execSearch env { s with limit := some Option.none } org obj (storedFields fst) kw
            (PyLimit.str (pyStrip i)) rest) ∧
      (∀ n, pyLower (pyStrip i) ≠ "start over" → pyLower (pyStrip i) ≠ "all" →
        pyLower (pyStrip i) ≠ "" → pyParseInt (pyStrip i) = some n →
        loopIter env s (i :: rest) =
          execSearch env { s with limit := some (some n) } org obj (storedFields fst) kw
            (PyLimit.str (pyStrip i)) rest) ∧
      (pyLower (pyStrip i) ≠ "start over" → pyLower (pyStrip i) ≠ "all" →
        pyLower (pyStrip i) ≠ "" → pyParseInt (pyStrip i) = Option.none →
        loopIter env s (i :: rest) = .fatal .valueError)) ∧
    (∀ env fuel s inputs, loopIter env s inputs = .fatal .valueError →
      runSession env (fuel + 1) s inputs = .fatal .valueError) := by
  constructor
  · intro env s org obj fst kw i rest h1 ha h2 h3 h4 h5
    refine ⟨?_, ?_, ?_⟩
    · intro hall
      have hsb : (pyLower (pyStrip i) == "start over") = false := by
        rcases hall with h | h <;> simp [h]
      have hcond : (pyLower (pyStrip i) == "all" || pyLower (pyStrip i) == "") = true := by
        rcases hall with h | h <;> simp [h]
      simp [loopIter, afterOrg, afterAuth, afterObject, afterFields, afterKeyword,
            h1, ha, h2, h3, h4, h5, hsb, hcond]
    · intro n hso hna hne hp
      have hsb : (pyLower (pyStrip i) == "start over") = false := beq_eq_false_iff_ne.mpr hso
      have hab : (pyLower (pyStrip i) == "all") = false := beq_eq_false_iff_ne.mpr hna
      have heb : (pyLower (pyStrip i) == "") = false := beq_eq_false_iff_ne.mpr hne
      simp [loopIter, afterOrg, afterAuth, afterObject, afterFields, afterKeyword,
            h1, ha, h2, h3, h4, h5, hsb, hab, heb, hp]
    · intro hso hna hne hp
      have hsb : (pyLower (pyStrip i) == "start over") = false := beq_eq_false_iff_ne.mpr hso
      have hab : (pyLower (pyStrip i) == "all") = false := beq_eq_false_iff_ne.mpr hna
      have heb : (pyLower (pyStrip i) == "") = false := beq_eq_false_iff_ne.mpr hne
      simp [loopIter, afterOrg, afterAuth, afterObject, afterFields, afterKeyword,
            h1, ha, h2, h3, h4, h5, hsb, hab, heb, hp]
  · intro env fuel s inputs h
    simp [runSession, h]

/-- Witness for C6 on a concrete authenticated session: `"all"` stores the
sentinel, `"7"` stores the parsed integer, `"ten"` kills the session. -/
theorem limit_parse_behavior_witness :
    loopIter envAuthOk ⟨some "MyOrg", some "Account", some (some ["Id"]), some "Acme",
      Option.none⟩ ["all"] =
      execSearch envAuthOk ⟨some "MyOrg", some "Account", some (some ["Id"]), some "Acme",
        some Option.none⟩ "MyOrg" "Account" (storedFields (some ["Id"])) "Acme"
        (PyLimit.str "all") [] ∧
    loopIter envAuthOk ⟨some "MyOrg", some "Account", some (some ["Id"]), some "Acme",
      Option.none⟩ ["7"] =
      execSearch envAuthOk ⟨some "MyOrg", some "Account", some (some ["Id"]), some "Acme",
        some (some 7)⟩ "MyOrg" "Account" (storedFields (some ["Id"])) "Acme"
        (PyLimit.str "7") [] ∧
    loopIter envAuthOk ⟨some "MyOrg", some "Account", some (some ["Id"]), some "Acme",
      Option.none⟩ ["ten"] = .fatal .valueError ∧
    runSession envAuthOk 3 ⟨some "MyOrg", some "Account", some (some ["Id"]), some "Acme",
      Option.none⟩ ["ten"] = .fatal .valueError := by
  have hall := ((limit_parse_behavior.1 envAuthOk
    ⟨some "MyOrg", some "Account", some (some ["Id"]), some "Acme", Option.none⟩
    "MyOrg" "Account" (some ["Id"]) "Acme"
    "all" [] rfl rfl rfl rfl rfl rfl).1 (Or.inl rfl))
  have hseven := ((limit_parse_behavior.1 envAuthOk
    ⟨some "MyOrg", some "Account", some (some ["Id"]), some "Acme", Option.none⟩
    "MyOrg" "Account" (some ["Id"]) "Acme"
    "7" [] rfl rfl rfl rfl rfl rfl).2.1 7 (by decide) (by decide) (by decide) rfl)
  have hten := ((limit_parse_behavior.1 envAuthOk
    ⟨some "MyOrg", some "Account", some (some ["Id"]), some "Acme", Option.none⟩
    "MyOrg" "Account" (some ["Id"]) "Acme"
    "ten" [] rfl rfl rfl rfl rfl rfl).2.2 (by decide) (by decide) (by decide) rfl)
  exact ⟨hall, hseven, hten, limit_parse_behavior.2 envAuthOk 2 _ _ hten⟩

/-- Claim C9: when the search command's response does not take the error
path, a response that fails to parse yields the literal
`"Error: Unable to parse search results."` (no exception escapes), and a
parsed response whose `result.records` list is empty or absent yields the
literal `"No records found."`. -/
theorem search_result_messages (env : Env) (object_name target_org kw : String)
    (limit : PyLimit) (fields : PyFields) (hk : kw ≠ "")
    (hpre : pyStartsWith
      (run_command env (searchCommandFor object_name target_org kw limit fields))
      "Error:" = false) :
    (env.parse (run_command env (searchCommandFor object_name target_org kw limit fields)) =
        Option.none →
      (SF_record_search env object_name target_org (some kw) limit fields).1 =
        .ok (.msg "Error: Unable to parse search results.")) ∧
    (∀ kvs, env.parse (run_command env (searchCommandFor object_name target_org kw limit fields)) =
        some (.dict kvs) →
      (dictLookup kvs "result" = Option.none ∨
        ∃ rkvs, dictLookup kvs "result" = some (.dict rkvs) ∧
          (dictLookup rkvs "records" = Option.none ∨
           dictLookup rkvs "records" = some (.list []))) →
      (SF_record_search env object_name target_org (some kw) limit fields).1 =
        .ok (.msg "No records found.")) := by
  have hkb : (kw == "") = false := beq_eq_false_iff_ne.mpr hk
  constructor
  · intro hparse
    simp [SF_record_search, hkb, hpre, searchBody, pyLoads, hparse, Bind.bind, Except.bind]
  · intro kvs hparse hrec
    rcases hrec with h | ⟨rkvs, h, hr⟩
    · simp [SF_record_search, hkb, hpre, searchBody, pyLoads, hparse, pyGetDefault, h,
            dictLookup, pyTruthy, Bind.bind, Except.bind, pure, Except.pure]
    · rcases hr with hr | hr <;>
        simp [SF_record_search, hkb, hpre, searchBody, pyLoads, hparse, pyGetDefault, h, hr,
              pyTruthy, Bind.bind, Except.bind, pure, Except.pure]

/-- Witness for C9: unparseable output gives the parse-error message, an
empty `records` array gives `"No records found."`. -/
theorem search_result_messages_witness :
    (SF_record_search envGarbage "Account" "MyOrg" (some "Acme") (.int 10) (.list ["Id"])).1 =
      .ok (.msg "Error: Unable to parse search results.") ∧
    (SF_record_search envEmpty "Account" "MyOrg" (some "Acme") (.int 10) (.list ["Id"])).1 =
      .ok (.msg "No records found.") :=
  ⟨(search_result_messages envGarbage "Account" "MyOrg" "Acme" (.int 10) (.list ["Id"])
      (by decide) rfl).1 rfl,
   (search_result_messages envEmpty "Account" "MyOrg" "Acme" (.int 10) (.list ["Id"])
      (by decide) rfl).2 [("result", .dict [("records", .list [])])] rfl
      (Or.inr ⟨[("records", .list [])], rfl, Or.inr rfl⟩)⟩

/-- On a well-shaped field record, the loop body computes the name, the type
and the required marker, and the marker is `"✓"` exactly when the field is
required in the spec's sense. -/
theorem fieldRow_good (f : PyVal) (hf : GoodField f) :
    fieldRow f = .ok (specName f, specType f, if specRequired f then "✓" else "") := by
  obtain ⟨kvs, rfl, ⟨nv, hn⟩, ⟨tv, ht⟩, hnil, hcre⟩ := hf
  rcases hnil with hnil | ⟨b, hnil⟩ <;> rcases hcre with hcre | ⟨c, hcre⟩
  · simp [fieldRow, specName, specType, specRequired, hn, ht, hnil, hcre, pyTruthy]
  · cases c <;> simp [fieldRow, specName, specType, specRequired, hn, ht, hnil, hcre, pyTruthy]
  · cases b <;> simp [fieldRow, specName, specType, specRequired, hn, ht, hnil, hcre, pyTruthy]
  · cases b <;> cases c <;>
      simp [fieldRow, specName, specType, specRequired, hn, ht, hnil, hcre, pyTruthy]

/-- `List.mapM fieldRow` over well-shaped field records. -/
theorem mapM_fieldRow (fs : List PyVal) (h : ∀ f ∈ fs, GoodField f) :
    fs.mapM fieldRow =
      .ok (fs.map (fun f => (specName f, specType f, if specRequired f then "✓" else ""))) := by
  induction fs with
  | nil => rfl
  | cons f rest ih =>
    rw [List.mapM_cons]
    rw [fieldRow_good f (h f (by simp)), ih (fun g hg => h g (by simp [hg]))]
    rfl

/-- On a well-shaped field record, `field["name"]` is the spec-side name. -/
theorem subscript_name_good (f : PyVal) (hf : GoodField f) :
    pySubscript f "name" = .ok (specName f) := by
  obtain ⟨kvs, rfl, ⟨nv, hn⟩, _, _, _⟩ := hf
  simp [pySubscript, specName, hn]

/-- The final `[field["name"] for field in fields]` comprehension over
well-shaped field records. -/
theorem mapM_name (fs : List PyVal) (h : ∀ f ∈ fs, GoodField f) :
    fs.mapM (fun f => pySubscript f "name") = .ok (fs.map specName) := by
  induction fs with
  | nil => rfl
  | cons f rest ih =>
    rw [List.mapM_cons]
    rw [subscript_name_good f (h f (by simp)), ih (fun g hg => h g (by simp [hg]))]
    rfl

/-- Collecting the names of the rows whose marker is nonempty collects
exactly the names of the spec-required fields, in order. -/
theorem filterMap_required (fs : List PyVal) :
    (fs.map (fun f => (specName f, specType f, if specRequired f then "✓" else ""))).filterMap
      (fun r => if r.2.2 == "" then Option.none else some r.1) =
      (fs.filter specRequired).map specName := by
  rw [List.filterMap_map]
  induction fs with
  | nil => rfl
  | cons f rest ih =>
    rw [List.filterMap_cons, List.filter_cons]
    cases hr : specRequired f <;> simp +decide [Function.comp, hr] <;> simpa using ih

/-- Claim C7: on a successful describe response, a field is classified as
required exactly when its `nillable` flag is present and false AND its
`createable` flag is present and true (a missing flag defaults to
not-required), and both returned lists — all field names and required field
names — preserve the response order. -/
theorem describe_object_required_fields (env : Env) (org_alias object_name out : String)
    (kvs rkvs : List (String × PyVal)) (fs : List PyVal)
    (hrun : env.run (describeCommand org_alias object_name) = .success out)
    (hpre : pyStartsWith (pyStrip out) "Error:" = false)
    (hparse : env.parse (pyStrip out) = some (.dict kvs))
    (hres : dictLookup kvs "result" = some (.dict rkvs))
    (hfields : dictLookup rkvs "fields" = some (.list fs))
    (hgood : ∀ f ∈ fs, GoodField f) :
    describe_object env org_alias object_name =
      .ok (fs.map specName, (fs.filter specRequired).map specName) := by
  have hcmd : run_command env (describeCommand org_alias object_name) = pyStrip out := by
    simp [run_command, hrun]
  rw [describe_object, hcmd]
  rw [if_neg (by simp [hpre])]
  have h1 : pySubscript (PyVal.dict kvs) "result" = .ok (.dict rkvs) := by
    simp [pySubscript, hres]
  have h2 : pySubscript (PyVal.dict rkvs) "fields" = .ok (.list fs) := by
    simp [pySubscript, hfields]
  have hbody : describeBody env (pyStrip out) =
      .ok (fs.map specName, (fs.filter specRequired).map specName) := by
    rw [describeBody]
    simp only [pyLoads, hparse, h1, h2, pyIter, Bind.bind, Except.bind]
    rw [mapM_fieldRow fs hgood, mapM_name fs hgood]
    simp
    simpa using filterMap_required fs
  rw [hbody]

/-- Witness for C7: a describe answer with one required field (`Id`) and one
optional field (`Notes`, `createable` absent). -/
theorem describe_object_required_fields_witness :
    describe_object envDesc "MyOrg" "Account" =
      .ok ([.str "Id", .str "Notes"], [.str "Id"]) := by
  have h := describe_object_required_fields envDesc "MyOrg" "Account" "DESCJSON"
    [("result", .dict [("fields", .list [fieldA, fieldB])])]
    [("fields", .list [fieldA, fieldB])] [fieldA, fieldB]
    rfl rfl rfl rfl rfl
    (by
      intro f hf
      simp only [List.mem_cons, List.not_mem_nil, or_false] at hf
      rcases hf with rfl | rfl
      · exact ⟨_, rfl, ⟨.str "Id", rfl⟩, ⟨.str "id", rfl⟩,
          Or.inr ⟨false, rfl⟩, Or.inr ⟨true, rfl⟩⟩
      · exact ⟨_, rfl, ⟨.str "Notes", rfl⟩, ⟨.str "textarea", rfl⟩,
          Or.inr ⟨true, rfl⟩, Or.inl rfl⟩)
  exact h.trans rfl

/-- Appending a final element to a nonempty join inserts one separator. -/
theorem pyJoin_concat (sep : String) (xs : List String) (x : String) (h : xs ≠ []) :
    pyJoin sep (xs ++ [x]) = pyJoin sep xs ++ sep ++ x := by
  match xs, h with
  | y :: rest, _ =>
    show (rest ++ [x]).foldl (fun acc z => acc ++ sep ++ z) y = _
    rw [List.foldl_append]
    rfl

/-- Claim C1 (corrected: the whole-keyword clause is appended with a
hard-coded `" OR "`, so a non-empty but all-whitespace keyword — zero parts —
produces a leading `" OR "` instead of a plain single clause): whenever the
keyword has at least one whitespace-separated part, the built query is
exactly the N+1 clauses — one `FIND {part}` per part plus a final
`FIND {keyword}` — joined by `" OR "`, followed by
`" RETURNING <object>(<fields> <limit>)"`; and the concrete scenario of the
claim evaluates as stated. -/
theorem sfQuery_clause_structure (object_name keyword : String) (limit : PyLimit)
    (fields : List String) (hparts : pySplitWS keyword ≠ []) :
    sfQuery object_name keyword limit fields =
      specQueryC1 object_name keyword limit fields ∧
    sfQuery "Account" "Acme Corp" (.int 10) ["Id", "Name"] =
      "FIND \x7bAcme\x7d OR FIND \x7bCorp\x7d OR FIND \x7bAcme Corp\x7d RETURNING Account(Id, Name LIMIT 10)" := by
  constructor
  · have hmap : (pySplitWS keyword).map findClause ≠ [] := by
      simpa using hparts
    rw [sfQuery, specQueryC1, keywordConditions,
        pyJoin_concat " OR " ((pySplitWS keyword).map findClause) (findClause keyword) hmap]
  · rfl

/-- Counterexample for C1 as frozen: the keyword `" "` is non-empty and has
zero whitespace-separated parts, and the built query is NOT the `" OR "`-join
of its 0+1 clauses followed by the `RETURNING` tail — it carries a stray
leading `" OR "`. -/
theorem sfQuery_whitespace_keyword_counterexample :
    sfQuery "Account" " " (.int 10) ["Id", "Name"] =
      " OR FIND \x7b \x7d RETURNING Account(Id, Name LIMIT 10)" ∧
    specQueryC1 "Account" " " (.int 10) ["Id", "Name"] =
      "FIND \x7b \x7d RETURNING Account(Id, Name LIMIT 10)" ∧
    sfQuery "Account" " " (.int 10) ["Id", "Name"] ≠
      specQueryC1 "Account" " " (.int 10) ["Id", "Name"] :=
  ⟨rfl, rfl, by decide⟩

/-- Witness for the amended C1 at the claim's own scenario. -/
theorem sfQuery_clause_structure_witness :
    pySplitWS "Acme Corp" ≠ [] ∧
    sfQuery "Account" "Acme Corp" (.int 10) ["Id", "Name"] =
      specQueryC1 "Account" "Acme Corp" (.int 10) ["Id", "Name"] :=
  ⟨by decide,
   (sfQuery_clause_structure "Account" "Acme Corp" (.int 10) ["Id", "Name"] (by decide)).1⟩

/-! ### Substring lemmas for C2 -/

theorem data_append (s t : String) : (s ++ t).data = s.data ++ t.data := rfl

/-- Two strings with the same character data are equal. -/
theorem string_data_eq {s t : String} (h : s.data = t.data) : s = t := by
  cases s with
  | mk d1 =>
    cases t with
    | mk d2 => exact congrArg String.mk (by simpa using h)

theorem startsB_iff (p l : List Char) : startsB p l = true ↔ ∃ v, l = p ++ v := by
  induction p generalizing l with
  | nil => exact ⟨fun _ => ⟨l, rfl⟩, fun _ => rfl⟩
  | cons c cs ih =>
    cases l with
    | nil =>
      constructor
      · intro h; exact absurd h (by rw [startsB]; simp)
      · rintro ⟨v, hv⟩; cases hv
    | cons d ds =>
      rw [startsB, Bool.and_eq_true, beq_iff_eq, ih]
      constructor
      · rintro ⟨hcd, v, hds⟩
        exact ⟨v, by rw [hds, ← hcd, List.cons_append]⟩
      · rintro ⟨v, hv⟩
        simp only [List.cons_append, List.cons.injEq] at hv
        exact ⟨hv.1.symm, v, hv.2⟩

theorem subB_iff (p l : List Char) : subB p l = true ↔ isSub p l := by
  induction l with
  | nil =>
    cases p with
    | nil => exact ⟨fun _ => ⟨[], [], rfl⟩, fun _ => rfl⟩
    | cons c cs => simp [subB, isSub]
  | cons d ds ih =>
    rw [subB, Bool.or_eq_true, ih, startsB_iff]
    constructor
    · rintro (⟨v, hv⟩ | ⟨u, v, huv⟩)
      · exact ⟨[], v, by simp [hv]⟩
      · exact ⟨d :: u, v, by simp [huv]⟩
    · rintro ⟨u, v, huv⟩
      cases u with
      | nil => exact Or.inl ⟨v, by simpa using huv⟩
      | cons x xs =>
        have h2 : ds = xs ++ p ++ v := by
          have := huv
          simp only [List.cons_append, List.cons.injEq] at this
          exact this.2
        exact Or.inr ⟨xs, v, h2⟩

theorem noLIM_of_subB (s : String) (h : subB limChars s.data = false) : NoLIM s := by
  intro hs
  rw [(subB_iff limChars s.data).mpr hs] at h
  exact Bool.noConfusion h

theorem isSub_trans {p q l : List Char} (h1 : isSub p q) (h2 : isSub q l) : isSub p l := by
  obtain ⟨u1, v1, rfl⟩ := h1
  obtain ⟨u2, v2, rfl⟩ := h2
  exact ⟨u2 ++ u1, v1 ++ v2, by simp⟩

theorem append_eq_split {α : Type} : ∀ (a b c d : List α), a ++ b = c ++ d →
    (∃ m, c = a ++ m ∧ b = m ++ d) ∨ (∃ m, a = c ++ m ∧ d = m ++ b) := by
  intro a
  induction a with
  | nil =>
    intro b c d h
    exact Or.inl ⟨c, rfl, by simpa using h⟩
  | cons x xs ih =>
    intro b c d h
    cases c with
    | nil => exact Or.inr ⟨x :: xs, rfl, by simpa using h.symm⟩
    | cons y ys =>
      have hx : x = y ∧ xs ++ b = ys ++ d := by simpa using h
      rcases ih b ys d hx.2 with ⟨m, h1, h2⟩ | ⟨m, h1, h2⟩
      · exact Or.inl ⟨m, by simp [hx.1, h1], h2⟩
      · exact Or.inr ⟨m, by simp [hx.1, h1], h2⟩

/-- Decomposition of an occurrence across an append: the pattern lies in the
left part, in the right part, or straddles the boundary (a nonempty suffix of
the left glued to a nonempty prefix of the right). -/
theorem isSub_append_or (p a b : List Char) (h : isSub p (a ++ b)) :
    isSub p a ∨ isSub p b ∨
      ∃ p₁ p₂, p = p₁ ++ p₂ ∧ p₁ ≠ [] ∧ p₂ ≠ [] ∧ (∃ u, a = u ++ p₁) ∧ ∃ v, b = p₂ ++ v := by
  obtain ⟨u, v, huv⟩ := h
  rcases append_eq_split a b u (p ++ v) (by simpa [List.append_assoc] using huv) with
    ⟨m, _, hm2⟩ | ⟨m, hm1, hm2⟩
  · exact Or.inr (Or.inl ⟨m, v, by simp [hm2]⟩)
  · rcases append_eq_split p v m b hm2 with ⟨k, hk1, _⟩ | ⟨k, hk1, hk2⟩
    · exact Or.inl ⟨u, k, by simp [hm1, hk1]⟩
    · cases m with
      | nil =>
        refine Or.inr (Or.inl ⟨[], v, ?_⟩)
        have hp : p = k := by simpa using hk1
        simp [hk2, hp]
      | cons m0 ms =>
        cases k with
        | nil => exact Or.inl ⟨u, [], by simpa [hm1] using congrArg (u ++ ·) hk1.symm⟩
        | cons k0 ks =>
          exact Or.inr (Or.inr ⟨m0 :: ms, k0 :: ks, hk1, by simp, by simp,
            ⟨u, hm1⟩, ⟨v, hk2⟩⟩)

theorem lastC_cons (x : Char) (l : List Char) (h : l ≠ []) : lastC (x :: l) = lastC l := by
  cases l with
  | nil => exact absurd rfl h
  | cons c cs => rfl

theorem lastC_append (u p : List Char) (hp : p ≠ []) : lastC (u ++ p) = lastC p := by
  induction u with
  | nil => rfl
  | cons x xs ih =>
    have h2 : xs ++ p ≠ [] := by simp [hp]
    rw [List.cons_append, lastC_cons x _ h2, ih]

theorem headC_append (p v : List Char) (hp : p ≠ []) : headC (p ++ v) = headC p := by
  cases p with
  | nil => exact absurd rfl hp
  | cons c cs => rfl

/-- Any straddling split of `"LIMIT"` ends its left half in `L`/`I`/`M` and
starts its right half with `I`/`M`/`T`. -/
theorem limit_span_shape (p₁ p₂ : List Char) (h : p₁ ++ p₂ = limChars)
    (h1 : p₁ ≠ []) (h2 : p₂ ≠ []) :
    (lastC p₁ = some 'L' ∨ lastC p₁ = some 'I' ∨ lastC p₁ = some 'M') ∧
    (headC p₂ = some 'I' ∨ headC p₂ = some 'M' ∨ headC p₂ = some 'T') := by
  have hp1 : p₁ = limChars.take p₁.length := by
    rw [← h]; exact (List.take_left p₁ p₂).symm
  have hp2 : p₂ = limChars.drop p₁.length := by
    rw [← h]; exact (List.drop_left p₁ p₂).symm
  have hlen : p₁.length + p₂.length = 5 := by
    have hc := congrArg List.length h
    rw [List.length_append] at hc
    exact hc.trans rfl
  have hl1 : 1 ≤ p₁.length := by
    cases hq : p₁ with
    | nil => exact absurd hq h1
    | cons _ _ => simp [hq]
  have hl4 : p₁.length ≤ 4 := by
    have : 1 ≤ p₂.length := by
      cases hq : p₂ with
      | nil => exact absurd hq h2
      | cons _ _ => simp [hq]
    omega
  set n := p₁.length with hn
  interval_cases n <;> rw [hp1, hp2] <;> decide

theorem noSpanL {a b : List Char} (ha : ¬ isSub limChars a) (hb : ¬ isSub limChars b)
    (hs : SafeL a) : ¬ isSub limChars (a ++ b) := by
  intro h
  rcases isSub_append_or _ _ _ h with h | h | ⟨p₁, p₂, hp, h1, h2, ⟨u, hu⟩, ⟨v, hv⟩⟩
  · exact ha h
  · exact hb h
  · have hshape := limit_span_shape p₁ p₂ hp.symm h1 h2
    have hlast : lastC a = lastC p₁ := by rw [hu]; exact lastC_append u p₁ h1
    rcases hshape.1 with hL | hL | hL
    · exact hs.1 (hlast.trans hL)
    · exact hs.2.1 (hlast.trans hL)
    · exact hs.2.2 (hlast.trans hL)

theorem noSpanR {a b : List Char} (ha : ¬ isSub limChars a) (hb : ¬ isSub limChars b)
    (hs : SafeR b) : ¬ isSub limChars (a ++ b) := by
  intro h
  rcases isSub_append_or _ _ _ h with h | h | ⟨p₁, p₂, hp, h1, h2, ⟨u, hu⟩, ⟨v, hv⟩⟩
  · exact ha h
  · exact hb h
  · have hshape := limit_span_shape p₁ p₂ hp.symm h1 h2
    have hhead : headC b = headC p₂ := by rw [hv]; exact headC_append p₂ v h2
    rcases hshape.2 with hR | hR | hR
    · exact hs.1 (hhead.trans hR)
    · exact hs.2.1 (hhead.trans hR)
    · exact hs.2.2 (hhead.trans hR)

theorem noLIM_appendL {a b : String} (ha : NoLIM a) (hb : NoLIM b) (hs : SafeL a.data) :
    NoLIM (a ++ b) := fun h => noSpanL ha hb hs h

theorem noLIM_appendR {a b : String} (ha : NoLIM a) (hb : NoLIM b) (hs : SafeR b.data) :
    NoLIM (a ++ b) := fun h => noSpanR ha hb hs h

theorem safeL_congr {a b : List Char} (h : lastC a = lastC b) (hb : SafeL b) : SafeL a := by
  unfold SafeL at hb ⊢
  rw [h]
  exact hb

theorem foldl_sep_noLIM (sep : String) (hsep : NoLIM sep) (hL : SafeL sep.data)
    (hR : SafeR sep.data) (hne : sep.data ≠ []) :
    ∀ (xs : List String) (acc : String), NoLIM acc → (∀ x ∈ xs, NoLIM x) →
      NoLIM (xs.foldl (fun a y => a ++ sep ++ y) acc) := by
  intro xs
  induction xs with
  | nil => intro acc hacc _; exact hacc
  | cons y ys ih =>
    intro acc hacc hxs
    rw [List.foldl_cons]
    refine ih (acc ++ sep ++ y) ?_ (fun z hz => hxs z (by simp [hz]))
    have h1 : NoLIM (acc ++ sep) := noLIM_appendR hacc hsep hR
    refine noLIM_appendL h1 (hxs y (by simp)) ?_
    refine safeL_congr ?_ hL
    rw [data_append]
    exact lastC_append _ _ hne

theorem pyJoin_noLIM (sep : String) (hsep : NoLIM sep) (hL : SafeL sep.data)
    (hR : SafeR sep.data) (hne : sep.data ≠ []) (xs : List String)
    (hxs : ∀ x ∈ xs, NoLIM x) : NoLIM (pyJoin sep xs) := by
  cases xs with
  | nil => exact noLIM_of_subB "" rfl
  | cons x rest =>
    exact foldl_sep_noLIM sep hsep hL hR hne rest x (hxs x (by simp))
      (fun y hy => hxs y (by simp [hy]))

/-- Every token produced by the splitter is a contiguous part of the input
(with the pending accumulator restored in front). -/
theorem wsSplitAux_sub : ∀ (l acc t : List Char), t ∈ wsSplitAux l acc →
    isSub t (acc.reverse ++ l) := by
  intro l
  induction l with
  | nil =>
    intro acc t ht
    rw [wsSplitAux] at ht
    by_cases hacc : acc.isEmpty
    · rw [if_pos hacc] at ht; cases ht
    · rw [if_neg hacc] at ht
      have h : t = acc.reverse := by simpa using ht
      exact ⟨[], [], by simp [h]⟩
  | cons c cs ih =>
    intro acc t ht
    rw [wsSplitAux] at ht
    by_cases hws : isPyWS c
    · rw [if_pos hws] at ht
      by_cases hacc : acc.isEmpty
      · rw [if_pos hacc] at ht
        obtain ⟨u, v, hu⟩ := ih [] t ht
        have hcs : cs = u ++ t ++ v := by simpa using hu
        exact ⟨acc.reverse ++ c :: u, v, by simp [hcs]⟩
      · rw [if_neg hacc] at ht
        rcases List.mem_cons.mp ht with rfl | ht2
        · exact ⟨[], c :: cs, by simp⟩
        · obtain ⟨u, v, hu⟩ := ih [] t ht2
          have hcs : cs = u ++ t ++ v := by simpa using hu
          exact ⟨acc.reverse ++ c :: u, v, by simp [hcs]⟩
    · rw [if_neg hws] at ht
      obtain ⟨u, v, hu⟩ := ih (c :: acc) t ht
      refine ⟨u, v, ?_⟩
      have hrw : (c :: acc).reverse ++ cs = acc.reverse ++ c :: cs := by simp
      rw [← hrw]
      exact hu

theorem pySplitWS_part_sub (kw t : String) (ht : t ∈ pySplitWS kw) :
    isSub t.data kw.data := by
  obtain ⟨l, hl, rfl⟩ := List.mem_map.mp ht
  simpa using wsSplitAux_sub kw.data [] l hl

theorem part_noLIM {kw t : String} (hkw : NoLIM kw) (ht : t ∈ pySplitWS kw) : NoLIM t :=
  fun h => hkw (isSub_trans h (pySplitWS_part_sub kw t ht))

theorem findClause_noLIM {p : String} (hp : NoLIM p) : NoLIM (findClause p) := by
  have h1 : NoLIM ("FIND \x7b" ++ p) :=
    noLIM_appendL (noLIM_of_subB _ rfl) hp (by decide)
  exact noLIM_appendR h1 (noLIM_of_subB _ rfl) (by decide)

theorem keywordConditions_noLIM {kw : String} (hkw : NoLIM kw) :
    NoLIM (keywordConditions kw) := by
  have hjoin : NoLIM (pyJoin " OR " ((pySplitWS kw).map findClause)) := by
    refine pyJoin_noLIM " OR " (noLIM_of_subB _ rfl) (by decide) (by decide) (by decide) _ ?_
    intro x hx
    obtain ⟨t, ht, rfl⟩ := List.mem_map.mp hx
    exact findClause_noLIM (part_noLIM hkw ht)
  have h1 : NoLIM (pyJoin " OR " ((pySplitWS kw).map findClause) ++ " OR ") :=
    noLIM_appendR hjoin (noLIM_of_subB _ rfl) (by decide)
  refine noLIM_appendL h1 (findClause_noLIM hkw) ?_
  refine safeL_congr ?_ (by decide : SafeL " OR ".data)
  rw [data_append]
  exact lastC_append _ _ (by decide)

/-- The core of the amended C2: a sentinel limit yields a query free of the
substring `"LIMIT"` as soon as the object name, keyword and fields are free
of it. -/
theorem sfQuery_noLIM (object_name kw : String) (limit : PyLimit) (fields : List String)
    (hu : isUnbounded limit = true) (hobj : NoLIM object_name) (hkw : NoLIM kw)
    (hf : ∀ f ∈ fields, NoLIM f) : NoLIM (sfQuery object_name kw limit fields) := by
  have hlc : limitClause limit = "" := by rw [limitClause, if_pos hu]
  have hfj : NoLIM (pyJoin ", " fields) :=
    pyJoin_noLIM ", " (noLIM_of_subB _ rfl) (by decide) (by decide) (by decide) fields hf
  rw [sfQuery, hlc]
  have a1 : NoLIM (keywordConditions kw ++ " RETURNING ") :=
    noLIM_appendR (keywordConditions_noLIM hkw) (noLIM_of_subB _ rfl) (by decide)
  have a2 : NoLIM (keywordConditions kw ++ " RETURNING " ++ object_name) := by
    refine noLIM_appendL a1 hobj (safeL_congr ?_ (by decide : SafeL " RETURNING ".data))
    rw [data_append]; exact lastC_append _ _ (by decide)
  have a3 : NoLIM (keywordConditions kw ++ " RETURNING " ++ object_name ++ "(") :=
    noLIM_appendR a2 (noLIM_of_subB _ rfl) (by decide)
  have a4 : NoLIM (keywordConditions kw ++ " RETURNING " ++ object_name ++ "(" ++
      pyJoin ", " fields) := by
    refine noLIM_appendL a3 hfj (safeL_congr ?_ (by decide : SafeL "(".data))
    rw [data_append]; exact lastC_append _ _ (by decide)
  have a5 : NoLIM (keywordConditions kw ++ " RETURNING " ++ object_name ++ "(" ++
      pyJoin ", " fields ++ " ") :=
    noLIM_appendR a4 (noLIM_of_subB _ rfl) (by decide)
  have a6 : NoLIM (keywordConditions kw ++ " RETURNING " ++ object_name ++ "(" ++
      pyJoin ", " fields ++ " " ++ "") := fun h => a5 (by simpa using h)
  exact noLIM_appendR a6 (noLIM_of_subB _ rfl) (by decide)

/-- Claim C2 (corrected: as frozen the claim is false on two counts — the
user arguments themselves may contain `"LIMIT"`, and an absent limit is not a
sentinel but the Python default `10` — see the counterexample): provided the
object name, the keyword and the resolved fields contain no `"LIMIT"`, a
sentinel limit (`"All"`/`"all"`/`None`) yields a query with no `"LIMIT"`
substring, and an integer limit `n` yields a query carrying exactly the text
`"LIMIT <n>"` (it ends with `"LIMIT <n>)"`). -/
theorem sfQuery_limit_clause (object_name keyword : String) (fields : PyFields)
    (hobj : NoLIM object_name) (hkw : NoLIM keyword)
    (hf : ∀ f ∈ fieldList (resolveFields fields), NoLIM f) :
    (∀ limit, isUnbounded limit = true →
      NoLIM (sfQuery object_name keyword limit (fieldList (resolveFields fields)))) ∧
    (∀ n : Int, ∃ pre,
      sfQuery object_name keyword (.int n) (fieldList (resolveFields fields)) =
        pre ++ ("LIMIT " ++ toString n ++ ")")) := by
  constructor
  · intro limit hu
    exact sfQuery_noLIM object_name keyword limit _ hu hobj hkw hf
  · intro n
    refine ⟨keywordConditions keyword ++ " RETURNING " ++ object_name ++ "(" ++
      pyJoin ", " (fieldList (resolveFields fields)) ++ " ", ?_⟩
    rw [sfQuery]
    rw [show limitClause (.int n) = "LIMIT " ++ toString n from rfl]
    apply string_data_eq
    simp [data_append]

/-- Counterexample for C2 as frozen: with the sentinel `"All"` the query for
keyword `"LIMIT"` does contain the substring `"LIMIT"`; and with the limit
argument absent (the Python default `limit=10` of line 75) the query also
contains `"LIMIT"`. -/
theorem sfQuery_limit_counterexample :
    isSub limChars (sfQuery "Account" "LIMIT" (.str "All") ["Id", "Name"]).data ∧
    isSub limChars (sfQuery "Account" "Acme" SF_limit_default ["Id", "Name"]).data :=
  ⟨(subB_iff _ _).mp rfl, (subB_iff _ _).mp rfl⟩

/-- Witness for the amended C2 at concrete arguments. -/
theorem sfQuery_limit_clause_witness :
    NoLIM (sfQuery "Account" "Acme" (.str "All")
      (fieldList (resolveFields (.list ["Id", "Name"])))) ∧
    ∃ pre, sfQuery "Account" "Acme" (.int 5)
      (fieldList (resolveFields (.list ["Id", "Name"]))) =
        pre ++ ("LIMIT " ++ toString (5 : Int) ++ ")") := by
  have h := sfQuery_limit_clause "Account" "Acme" (.list ["Id", "Name"])
    (noLIM_of_subB _ rfl) (noLIM_of_subB _ rfl)
    (by
      intro f hf
      have hf2 : f ∈ ["Id", "Name"] := hf
      simp only [List.mem_cons, List.not_mem_nil, or_false] at hf2
      rcases hf2 with rfl | rfl <;> exact noLIM_of_subB _ rfl)
  exact ⟨h.1 (.str "All") rfl, h.2 5⟩

/-! ### Lemmas for C3 -/

theorem pyStartsWith_error_cons (x : String) :
    pyStartsWith ("Error: " ++ x) "Error:" = true := rfl

/-- When the returned text is not `"Error:"`-prefixed, the command in fact
succeeded and the text is its stripped stdout. -/
theorem run_command_not_error (env : Env) (cmd : String)
    (h : pyStartsWith (run_command env cmd) "Error:" = false) :
    ∃ out, env.run cmd = .success out ∧ run_command env cmd = pyStrip out := by
  cases henv : env.run cmd with
  | success out => exact ⟨out, rfl, by rw [run_command, henv]⟩
  | timeout =>
    rw [run_command, henv] at h
    exact absurd h (by decide)
  | exit msg =>
    rw [run_command, henv] at h
    rw [pyStartsWith_error_cons] at h
    cases h

/-- `any(org.get("alias") == org_alias ...)` returns `True` exactly when some
entry is an object whose `alias` member is the requested string — provided
every entry is an object (a non-object entry before the first hit would raise
instead). -/
theorem anyAlias_ok_true_iff (al : String) (orgs : List PyVal)
    (hd : ∀ o ∈ orgs, ∃ kvs, o = PyVal.dict kvs) :
    anyAlias al orgs = .ok true ↔
      ∃ o ∈ orgs, ∃ kvs, o = PyVal.dict kvs ∧
        dictLookup kvs "alias" = some (.str al) := by
  induction orgs with
  | nil => simp [anyAlias]
  | cons o rest ih =>
    obtain ⟨kvs, rfl⟩ := hd o (by simp)
    have ihr := ih (fun g hg => hd g (by simp [hg]))
    have hstep : anyAlias al (PyVal.dict kvs :: rest) =
        (if (match dictLookup kvs "alias" with
             | some (PyVal.str s) => s == al
             | _ => false) = true then Except.ok true else anyAlias al rest) := rfl
    by_cases hsome : dictLookup kvs "alias" = some (.str al)
    · rw [hstep, hsome, if_pos (by simp)]
      constructor
      · intro _; exact ⟨PyVal.dict kvs, by simp, kvs, rfl, hsome⟩
      · intro _; rfl
    · have hm : (match dictLookup kvs "alias" with
          | some (PyVal.str s) => s == al
          | _ => false) = false := by
        cases hq : dictLookup kvs "alias" with
        | none => rfl
        | some w =>
          cases w with
          | str s =>
            have hne : ¬ s = al := fun he => hsome (by rw [hq, he])
            simpa using hne
          | none => rfl
          | bool b => rfl
          | int n => rfl
          | list xs => rfl
          | dict kk => rfl
      rw [hstep, hm, if_neg (by simp), ihr]
      constructor
      · rintro ⟨g, hg, kvs2, rfl, hl⟩
        exact ⟨PyVal.dict kvs2, by simp [hg], kvs2, rfl, hl⟩
      · rintro ⟨g, hg, kvs2, heq, hl⟩
        rcases List.mem_cons.mp hg with rfl | hg2
        · injection heq with h2
          subst h2
          exact absurd hl hsome
        · exact ⟨g, hg2, kvs2, heq, hl⟩

/-- Iterating a list of strings (the characters of a string, or the keys of a
dict) can never return `True`: the first `.get` raises `AttributeError`. -/
theorem anyAlias_str_elems (al : String) (elems : List PyVal)
    (h : ∀ o ∈ elems, ∃ s, o = PyVal.str s) : anyAlias al elems ≠ .ok true := by
  cases elems with
  | nil => simp [anyAlias]
  | cons o rest =>
    obtain ⟨s, rfl⟩ := h o (by simp)
    simp [anyAlias, aliasMatches, Bind.bind, Except.bind]

/-- Inversion of `resultArray`. -/
theorem resultArray_eq_some (v : PyVal) (orgs : List PyVal)
    (h : resultArray v = some orgs) :
    ∃ kvs, v = PyVal.dict kvs ∧
      (dictLookup kvs "result").getD (.list []) = .list orgs := by
  cases v with
  | dict kvs =>
    refine ⟨kvs, rfl, ?_⟩
    revert h
    rw [resultArray]
    cases hg : (dictLookup kvs "result").getD (.list []) with
    | list xs => intro h; injection h with h2; rw [h2]
    | none => intro h; cases h
    | bool b => intro h; cases h
    | int n => intro h; cases h
    | str s => intro h; cases h
    | dict kk => intro h; cases h
  | none => cases h
  | bool b => cases h
  | int n => cases h
  | str s => cases h
  | list xs => cases h

/-- Claim C3: `authenticate_org` returns true exactly when the auth-list
command succeeds, its output parses as JSON, and the parsed `result` array
has an entry whose `alias` equals the requested alias (case-sensitive exact
comparison); any command failure or JSON parse failure yields false.  Scope
hypotheses: the parser only accepts text that is not `"Error:"`-prefixed
(true of any JSON parser), and the parsed `result` entries are objects (the
claim speaks of entries with an `alias` field; a non-object entry would make
the Python `any(...)` raise instead of answering). -/
theorem authenticate_org_iff (env : Env) (org_alias : String)
    (hsane : JsonSane env) (hdicts : ResultEntriesAreDicts env) :
    (authenticate_org env org_alias = .ok true ↔ authSpec env org_alias) ∧
    (CmdFailed env authCommand → authenticate_org env org_alias = .ok false) ∧
    (env.parse (run_command env authCommand) = Option.none →
      authenticate_org env org_alias = .ok false) := by
  refine ⟨⟨?_, ?_⟩, ?_, ?_⟩
  · -- forward direction of the iff
    intro hA
    by_cases hpre : pyStartsWith (run_command env authCommand) "Error:" = true
    · rw [authenticate_org, if_pos hpre] at hA
      cases hA
    · have hpre2 : pyStartsWith (run_command env authCommand) "Error:" = false := by
        simpa using hpre
      obtain ⟨out, hrun, hresp⟩ := run_command_not_error env authCommand hpre2
      rw [authenticate_org, hresp] at hA
      rw [hresp] at hpre2
      rw [if_neg (by simp [hpre2])] at hA
      cases hp : env.parse (pyStrip out) with
      | none =>
        have hbody : authBody env org_alias (pyStrip out) = .error .jsonError := by
          rw [authBody]
          simp [pyLoads, hp, Bind.bind, Except.bind]
        rw [hbody] at hA
        cases hA
      | some v =>
        cases v with
        | dict kvs =>
          cases hrv : (dictLookup kvs "result").getD (.list []) with
          | list orgs =>
            have hbody : authBody env org_alias (pyStrip out) = anyAlias org_alias orgs := by
              rw [authBody]
              simp [pyLoads, hp, pyGetDefault, hrv, pyIter, Bind.bind, Except.bind]
            rw [hbody] at hA
            have hres : resultArray (PyVal.dict kvs) = some orgs := by
              rw [resultArray, hrv]
            have hd : ∀ o ∈ orgs, ∃ kk, o = PyVal.dict kk :=
              hdicts out (PyVal.dict kvs) orgs hrun hp hres
            have hany : anyAlias org_alias orgs = .ok true := by
              revert hA
              cases ha2 : anyAlias org_alias orgs with
              | ok b => cases b with
                | true => intro _; rfl
                | false => intro hA; cases hA
              | error e => cases e <;> intro hA <;> cases hA
            exact ⟨out, PyVal.dict kvs, orgs, hrun, hp, hres,
              (anyAlias_ok_true_iff org_alias orgs hd).mp hany⟩
          | str s =>
            have hbody : authBody env org_alias (pyStrip out) =
                anyAlias org_alias (s.data.map (fun c => PyVal.str (String.mk [c]))) := by
              rw [authBody]
              simp [pyLoads, hp, pyGetDefault, hrv, pyIter, Bind.bind, Except.bind]
            rw [hbody] at hA
            have hany : anyAlias org_alias
                (s.data.map (fun c => PyVal.str (String.mk [c]))) = .ok true := by
              revert hA
              cases ha2 : anyAlias org_alias (s.data.map (fun c => PyVal.str (String.mk [c]))) with
              | ok b => cases b with
                | true => intro _; rfl
                | false => intro hA; cases hA
              | error e => cases e <;> intro hA <;> cases hA
            exact absurd hany (anyAlias_str_elems org_alias _
              (fun o ho => by obtain ⟨c, _, rfl⟩ := List.mem_map.mp ho; exact ⟨_, rfl⟩))
          | dict kvs2 =>
            have hbody : authBody env org_alias (pyStrip out) =
                anyAlias org_alias (kvs2.map (fun p => PyVal.str p.1)) := by
              rw [authBody]
              simp [pyLoads, hp, pyGetDefault, hrv, pyIter, Bind.bind, Except.bind]
            rw [hbody] at hA
            have hany : anyAlias org_alias (kvs2.map (fun p => PyVal.str p.1)) = .ok true := by
              revert hA
              cases ha2 : anyAlias org_alias (kvs2.map (fun p => PyVal.str p.1)) with
              | ok b => cases b with
                | true => intro _; rfl
                | false => intro hA; cases hA
              | error e => cases e <;> intro hA <;> cases hA
            exact absurd hany (anyAlias_str_elems org_alias _
              (fun o ho => by obtain ⟨p, _, rfl⟩ := List.mem_map.mp ho; exact ⟨_, rfl⟩))
          | none =>
            have hbody : authBody env org_alias (pyStrip out) = .error .typeError := by
              rw [authBody]
              simp [pyLoads, hp, pyGetDefault, hrv, pyIter, Bind.bind, Except.bind]
            rw [hbody] at hA
            cases hA
          | bool b =>
            have hbody : authBody env org_alias (pyStrip out) = .error .typeError := by
              rw [authBody]
              simp [pyLoads, hp, pyGetDefault, hrv, pyIter, Bind.bind, Except.bind]
            rw [hbody] at hA
            cases hA
          | int n =>
            have hbody : authBody env org_alias (pyStrip out) = .error .typeError := by
              rw [authBody]
              simp [pyLoads, hp, pyGetDefault, hrv, pyIter, Bind.bind, Except.bind]
            rw [hbody] at hA
            cases hA
        | none =>
          have hbody : authBody env org_alias (pyStrip out) = .error .attributeError := by
            rw [authBody]
            simp [pyLoads, hp, pyGetDefault, Bind.bind, Except.bind]
          rw [hbody] at hA
          cases hA
        | bool b =>
          have hbody : authBody env org_alias (pyStrip out) = .error .attributeError := by
            rw [authBody]
            simp [pyLoads, hp, pyGetDefault, Bind.bind, Except.bind]
          rw [hbody] at hA
          cases hA
        | int n =>
          have hbody : authBody env org_alias (pyStrip out) = .error .attributeError := by
            rw [authBody]
            simp [pyLoads, hp, pyGetDefault, Bind.bind, Except.bind]
          rw [hbody] at hA
          cases hA
        | str s =>
          have hbody : authBody env org_alias (pyStrip out) = .error .attributeError := by
            rw [authBody]
            simp [pyLoads, hp, pyGetDefault, Bind.bind, Except.bind]
          rw [hbody] at hA
          cases hA
        | list xs =>
          have hbody : authBody env org_alias (pyStrip out) = .error .attributeError := by
            rw [authBody]
            simp [pyLoads, hp, pyGetDefault, Bind.bind, Except.bind]
          rw [hbody] at hA
          cases hA
  · -- backward direction of the iff
    rintro ⟨out, v, orgs, hrun, hparse, hres, hcont⟩
    obtain ⟨kvs, rfl, hrv⟩ := resultArray_eq_some v orgs hres
    have hresp : run_command env authCommand = pyStrip out := by
      rw [run_command, hrun]
    have hpre2 : pyStartsWith (pyStrip out) "Error:" = false :=
      hsane (pyStrip out) (PyVal.dict kvs) hparse
    have hd : ∀ o ∈ orgs, ∃ kk, o = PyVal.dict kk :=
      hdicts out (PyVal.dict kvs) orgs hrun hparse hres
    have hbody : authBody env org_alias (pyStrip out) = anyAlias org_alias orgs := by
      rw [authBody]
      simp [pyLoads, hparse, pyGetDefault, hrv, pyIter, Bind.bind, Except.bind]
    have hany : anyAlias org_alias orgs = .ok true :=
      (anyAlias_ok_true_iff org_alias orgs hd).mpr hcont
    rw [authenticate_org, hresp, if_neg (by simp [hpre2]), hbody, hany]
  · -- command failure yields false
    intro hfail
    rcases hfail with htime | ⟨msg, hexit⟩
    · rw [authenticate_org, run_command, htime, if_pos (by decide)]
    · rw [authenticate_org, run_command, hexit, if_pos (pyStartsWith_error_cons _)]
  · -- parse failure yields false
    intro hparse
    by_cases hpre : pyStartsWith (run_command env authCommand) "Error:" = true
    · rw [authenticate_org, if_pos hpre]
    · have hbody : authBody env org_alias (run_command env authCommand) = .error .jsonError := by
        rw [authBody]
        simp [pyLoads, hparse, Bind.bind, Except.bind]
      rw [authenticate_org, if_neg hpre, hbody]

/-- Witness for C3: in `envAuthOk` the alias `MyOrg` authenticates, and in
`envErr` (non-zero exit) authentication answers false. -/
theorem authenticate_org_iff_witness :
    authenticate_org envAuthOk "MyOrg" = .ok true ∧
    authenticate_org envErr "MyOrg" = .ok false := by
  have hsane : JsonSane envAuthOk := by
    intro s v h
    by_cases hs : s = "AUTHJSON"
    · subst hs; rfl
    · exfalso
      have h2 : (if (s == "AUTHJSON") = true then some authAnswer else Option.none) =
          some v := h
      rw [if_neg (by simpa using hs)] at h2
      cases h2
  have hdicts : ResultEntriesAreDicts envAuthOk := by
    intro out v orgs h1 h2 h3 o ho
    injection h1 with hout
    rw [← hout] at h2
    have hev : envAuthOk.parse (pyStrip "AUTHJSON") = some authAnswer := rfl
    rw [hev] at h2
    injection h2 with hv
    rw [← hv] at h3
    injection h3 with horgs
    rw [← horgs] at ho
    have ho2 : o = PyVal.dict [("alias", .str "MyOrg"), ("username", .str "u@x.com")] := by
      simpa [authAnswer, resultArray] using ho
    exact ⟨_, ho2⟩
  have hsaneE : JsonSane envErr := by intro s v h; cases h
  have hdictsE : ResultEntriesAreDicts envErr := by intro out v orgs _ h2 _ _ _; cases h2
  constructor
  · exact (authenticate_org_iff envAuthOk "MyOrg" hsane hdicts).1.mpr
      ⟨"AUTHJSON", authAnswer,
       [PyVal.dict [("alias", .str "MyOrg"), ("username", .str "u@x.com")]], rfl, rfl, rfl,
       ⟨PyVal.dict [("alias", .str "MyOrg"), ("username", .str "u@x.com")], by simp,
        [("alias", .str "MyOrg"), ("username", .str "u@x.com")], rfl, rfl⟩⟩
  · exact (authenticate_org_iff envErr "MyOrg" hsaneE hdictsE).2.1 (Or.inr ⟨"boom", rfl⟩)

end SF
